import Mathlib

/-!
Verification of the AlphaAI forecasting core against its specification.

The numeric type of the TypeScript source (IEEE-754 double) is modelled by the
rationals `ℚ`; JavaScript `NaN` entries of indicator series are modelled by
`Option ℚ` with `none` as the undefined marker.  JavaScript `Array.slice` and
the calendar arithmetic of `Date.setDate` are embedded by explicit helper
functions below.  All definitions are transcribed from
`src/services/lstmService.ts` (class `LSTMService`) and
`src/services/stockService.ts` (class `StockService`).
-/

namespace AlphaAI

/-- JS `arr.slice(a, b)` for `0 ≤ a ≤ b`: the elements at indices
`a, …, b-1`. -/
def jsSlice (l : List ℚ) (a b : ℕ) : List ℚ :=
  (l.take b).drop a

/-- JS `arr.slice(-k)` (used as `normalizedPrices.slice(-lookback)` in
`predict`): the last `k` elements; for `k = 0` JS gives the whole array. -/
def jsSliceLast (l : List ℚ) (k : ℕ) : List ℚ :=
  if k = 0 then l else l.drop (l.length - k)

/-- `Math.min(...data)` over a nonempty array; the empty case (JS `Infinity`)
never contributes a value downstream because mapping over an empty array is
empty. -/
def listMin : List ℚ → ℚ
  | [] => 0
  | x :: xs => xs.foldl min x

/-- `Math.max(...data)` over a nonempty array (empty case as in `listMin`). -/
def listMax : List ℚ → ℚ
  | [] => 0
  | x :: xs => xs.foldl max x

/-- The scaler `{ min, max }` stored by `LSTMService`. -/
structure Scaler where
  min : ℚ
  max : ℚ
deriving DecidableEq, Repr

/-- Result record of `normalizeData`. -/
structure NormResult where
  normalized : List ℚ
  scaler : Scaler
deriving DecidableEq, Repr

/-- `LSTMService.normalizeData` (lstmService.ts lines 13–18): computes
`min`/`max` of the data and maps `value ↦ (value - min) / (max - min)`.
The source performs no validation: an empty or constant (`max = min`) input
proceeds to the division (JS yields `NaN`; over `ℚ` division by zero yields
the junk value `0`); no exception is ever thrown. -/
def normalizeData (data : List ℚ) : NormResult :=
  let mn := listMin data
  let mx := listMax data
  { normalized := data.map (fun v => (v - mn) / (mx - mn))
    scaler := { min := mn, max := mx } }

/-- `LSTMService.denormalizeData` (lines 21–23):
`value ↦ value * (max - min) + min`. -/
def denormalizeData (normalizedData : List ℚ) (scaler : Scaler) : List ℚ :=
  normalizedData.map (fun v => v * (scaler.max - scaler.min) + scaler.min)

/-- `LSTMService.createSequences` (lines 26–36): for `i` from `lookback` to
`data.length - 1`, push window `data.slice(i - lookback, i)` and target
`data[i]`. -/
def createSequences (data : List ℚ) (lookback : ℕ) :
    List (List ℚ) × List ℚ :=
  let idxs := (List.range data.length).drop lookback
  (idxs.map (fun i => jsSlice data (i - lookback) i),
   idxs.map (fun i => data.getD i 0))

/-- The two error messages thrown by `LSTMService`:
`'Not enough data to train the model'` and `'Model not trained yet'`. -/
inductive LSTMError where
  | notEnoughData
  | notTrained
deriving DecidableEq, Repr

/-- Abstract interface to a trained tf.js model's one-window prediction
(`model.predict` on a single sequence): a deterministic map from a window of
normalized values to one value.  The network internals live in the external
`@tensorflow/tfjs` library, outside this repository. -/
def ModelFn : Type := List ℚ → ℚ

/-- The mutable fields of `LSTMService` (lines 9–10): `model` and `scaler`,
both initially `null`. -/
structure LSTMState where
  model : Option ModelFn
  scaler : Option Scaler

/-- A fresh `LSTMService` instance: `model = null`, `scaler = null`. -/
def freshState : LSTMState :=
  { model := none, scaler := none }

/-- `LSTMService.trainModel` (lines 68–111), with the external tf.js training
call abstracted by `fitted`, the trained model it would produce.  Returns the
state after the call together with the error thrown, if any.  It mirrors the
statement order of the source: the scaler is assigned (line 72) before the
empty-dataset check (lines 77–79), the model is assigned (line 86) after it,
and the `catch` block re-throws without touching state. -/
def trainModel (fitted : ModelFn) (st : LSTMState) (prices : List ℚ)
    (lookback : ℕ) : LSTMState × Option LSTMError :=
  let r := normalizeData prices
  let st1 : LSTMState := { st with scaler := some r.scaler }
  let seqs := createSequences r.normalized lookback
  if seqs.1.length = 0 then
    (st1, some .notEnoughData)
  else
    ({ st1 with model := some fitted }, none)

/-- The normalization step of `predict` (lines 121–123): the input prices are
normalized with the **stored** scaler, not a freshly fitted one. -/
def normalizeWith (s : Scaler) (prices : List ℚ) : List ℚ :=
  prices.map (fun price => (price - s.min) / (s.max - s.min))

/-- The rollout loop of `predict` (lines 129–142): `futureDays` iterations,
each feeding the model the current window, collecting the output, and sliding
the window by dropping its first element and appending the output. -/
def rollout (model : ModelFn) (window : List ℚ) : ℕ → List ℚ
  | 0 => []
  | n + 1 =>
    let p := model window
    p :: rollout model (window.drop 1 ++ [p]) n

/-- The window fed to the model at step `k` of the rollout (window `0` is the
initial window). -/
def rolloutWindow (model : ModelFn) (w0 : List ℚ) : ℕ → List ℚ
  | 0 => w0
  | k + 1 =>
    let w := rolloutWindow model w0 k
    w.drop 1 ++ [model w]

/-- The normalized prediction emitted at step `k` of the rollout. -/
def rolloutPred (model : ModelFn) (w0 : List ℚ) (k : ℕ) : ℚ :=
  model (rolloutWindow model w0 k)

/-- `parseFloat(x.toFixed(2))` (line 157): rounding to two decimal places,
half rounded up in the `ℚ` model. -/
def roundTo2 (x : ℚ) : ℚ :=
  (⌊x * 100 + 1 / 2⌋ : ℚ) / 100

/-- `LSTMService.predict` (lines 114–167).  The current wall-clock date
`new Date()` (line 149) is the epoch-day parameter `today`; since JS
`Date.setDate` normalizes day-of-month overflow, line 153 is plain addition of
`i + 1` days.  Output: one `(date, prediction)` pair per future day. -/
def predict (st : LSTMState) (today : ℕ) (prices : List ℚ)
    (lookback : ℕ) (futureDays : ℕ) : Except LSTMError (List (ℕ × ℚ)) :=
  match st.model, st.scaler with
  | some model, some scaler =>
    let normalizedPrices := normalizeWith scaler prices
    let predictions := rollout model (jsSliceLast normalizedPrices lookback) futureDays
    let denormalizedPredictions := denormalizeData predictions scaler
    .ok ((List.range denormalizedPredictions.length).map
      (fun i => (today + i + 1, roundTo2 (denormalizedPredictions.getD i 0))))
  | _, _ => .error .notTrained

/-- `LSTMService.dispose` (lines 170–176): the model and the scaler are both
reset to `null`. -/
def dispose (_st : LSTMState) : LSTMState :=
  { model := none, scaler := none }

/-- `StockService.calculateMovingAverage` (stockService.ts lines 99–112).
Only the `price` field of each `HistoricalPoint` is consulted, so the
embedding takes the list of prices; `NaN` entries are `none`.  The JS slice
bound `i - period + 1` is written `i + 1 - period`, equal over the integers
and exact over `ℕ` in the `period - 1 ≤ i` branch where it is used. -/
def calculateMovingAverage (data : List ℚ) (period : ℕ) : List (Option ℚ) :=
  (List.range data.length).map (fun i =>
    if i < period - 1 then
      none
    else
      some ((jsSlice data (i + 1 - period) (i + 1)).sum / period))

/-- The `gains` series of `calculateRSI` (lines 119–123):
`gains[i-1] = change` if `change > 0` else `0`, where
`change = data[i] - data[i-1]`, for `i = 1, …, data.length - 1`. -/
def rsiGains (data : List ℚ) : List ℚ :=
  ((List.range data.length).drop 1).map (fun i =>
    let change := data.getD i 0 - data.getD (i - 1) 0
    if 0 < change then change else 0)

/-- The `losses` series of `calculateRSI` (lines 119–123):
`losses[i-1] = |change|` if `change < 0` else `0`. -/
def rsiLosses (data : List ℚ) : List ℚ :=
  ((List.range data.length).drop 1).map (fun i =>
    let change := data.getD i 0 - data.getD (i - 1) 0
    if change < 0 then |change| else 0)

/-- Trailing-window average used by `calculateRSI` (lines 129–130):
`slice(i - period + 1, i + 1)` summed by `reduce` and divided by `period`
(the slice bound written `i + 1 - period` as in `calculateMovingAverage`). -/
def trailingAvg (series : List ℚ) (period i : ℕ) : ℚ :=
  (jsSlice series (i + 1 - period) (i + 1)).sum / period

/-- `StockService.calculateRSI` (lines 114–142): `NaN` for the first
`period - 1` delta indices, then `100` when the trailing average loss is `0`,
otherwise `100 - 100 / (1 + avgGain / avgLoss)`; a leading `NaN` re-aligns the
output with the input (line 141). -/
def calculateRSI (data : List ℚ) (period : ℕ) : List (Option ℚ) :=
  let gains := rsiGains data
  let losses := rsiLosses data
  let rsi := (List.range gains.length).map (fun i =>
    if i < period - 1 then
      none
    else
      let avgGain := trailingAvg gains period i
      let avgLoss := trailingAvg losses period i
      if avgLoss = 0 then
        some 100
      else
        some (100 - 100 / (1 + avgGain / avgLoss)))
  none :: rsi

/-- A concrete model instance (summing its window), used to instantiate the
abstract `ModelFn` in concrete evaluations. -/
def sumModel : ModelFn := fun w => w.sum

end AlphaAI

namespace AlphaAI

/-- Round-trip identity, exact over `ℚ`: helper for claim C4. -/
theorem denormalizeData_normalizeData (data : List ℚ)
    (h : (normalizeData data).scaler.max ≠ (normalizeData data).scaler.min) :
    denormalizeData (normalizeData data).normalized (normalizeData data).scaler = data := by
  unfold normalizeData denormalizeData at *
  simp only [List.map_map]
  have hne : listMax data - listMin data ≠ 0 := sub_ne_zero.mpr h
  have : ∀ v : ℚ,
      (v - listMin data) / (listMax data - listMin data) * (listMax data - listMin data)
        + listMin data = v := by
    intro v
    field_simp
  calc data.map _ = data.map id := List.map_congr_left (fun v _ => this v)
    _ = data := List.map_id data

/-- **C4.** For every series `x` whose fitted scaler is non-degenerate
(`max ≠ min`), denormalizing the normalization of `x` under that scaler
returns `x` elementwise within `1e-9` relative tolerance (in fact exactly,
over `ℚ`). -/
theorem claim4_roundtrip
    (x : List ℚ)
    (h : (normalizeData x).scaler.max ≠ (normalizeData x).scaler.min) :
    ∀ i < x.length,
      |(denormalizeData (normalizeData x).normalized (normalizeData x).scaler).getD i 0
          - x.getD i 0|
        ≤ 1 / 1000000000 * |x.getD i 0| := by
  intro i _
  rw [denormalizeData_normalizeData x h]
  simp only [sub_self, abs_zero]
  positivity

/-- Witness for C4 at the concrete series `[1, 2, 3]`. -/
theorem claim4_roundtrip_witness :
    (normalizeData [1, 2, 3]).scaler.max ≠ (normalizeData [1, 2, 3]).scaler.min ∧
    ∀ i < ([1, 2, 3] : List ℚ).length,
      |(denormalizeData (normalizeData [1, 2, 3]).normalized
            (normalizeData [1, 2, 3]).scaler).getD i 0
          - ([1, 2, 3] : List ℚ).getD i 0|
        ≤ 1 / 1000000000 * |([1, 2, 3] : List ℚ).getD i 0| :=
  ⟨by decide, claim4_roundtrip [1, 2, 3] (by decide)⟩

/-- Entry `i` of `(List.range n).map f` is `f i`. -/
theorem getD_map_range {α : Type} (n i : ℕ) (f : ℕ → α) (d : α) (hi : i < n) :
    ((List.range n).map f).getD i d = f i := by
  have h1 : i < ((List.range n).map f).length := by simpa using hi
  rw [List.getD_eq_getElem _ _ h1, List.getElem_map]
  simp

/-- Entry `i` of `((List.range n).drop m).map f` is `f (m + i)`. -/
theorem getD_map_range_drop {α : Type} (n m i : ℕ) (f : ℕ → α) (d : α)
    (hi : i < n - m) :
    (((List.range n).drop m).map f).getD i d = f (m + i) := by
  have h1 : i < (((List.range n).drop m).map f).length := by simpa using hi
  rw [List.getD_eq_getElem _ _ h1, List.getElem_map, List.getElem_drop]
  simp

/-- **C5.** `createSequences` yields `series.length - lookback` window/target
pairs (`ℕ` subtraction is `max (0, · - ·)`); pair `k` (i.e. source index
`i = k + lookback`) is the window `series[i - lookback : i]` — of length
`lookback` — paired with target `series[i]`, in chronological order of `k`;
and `createSequences [1,2,3,4,5] 2` is `([[1,2],[2,3],[3,4]], [3,4,5])`. -/
theorem claim5_createSequences
    (series : List ℚ) (lookback : ℕ) (hlb : 0 < lookback) :
    (createSequences series lookback).1.length = series.length - lookback ∧
    (createSequences series lookback).2.length = series.length - lookback ∧
    (∀ k < series.length - lookback,
      (createSequences series lookback).1.getD k []
          = (series.drop k).take lookback ∧
      ((createSequences series lookback).1.getD k []).length = lookback ∧
      (createSequences series lookback).2.getD k 0 = series.getD (k + lookback) 0) ∧
    createSequences [1, 2, 3, 4, 5] 2 = ([[1, 2], [2, 3], [3, 4]], [3, 4, 5]) := by
  refine ⟨by simp [createSequences], by simp [createSequences], ?_, by decide⟩
  intro k hk
  have hwin : (createSequences series lookback).1.getD k []
      = jsSlice series (lookback + k - lookback) (lookback + k) := by
    simp only [createSequences]
    exact getD_map_range_drop _ _ _ _ _ hk
  have htgt : (createSequences series lookback).2.getD k 0
      = series.getD (lookback + k) 0 := by
    simp only [createSequences]
    exact getD_map_range_drop _ _ _ _ _ hk
  have hslice : jsSlice series (lookback + k - lookback) (lookback + k)
      = (series.drop k).take lookback := by
    unfold jsSlice
    rw [List.drop_take]
    have e1 : lookback + k - lookback = k := by omega
    rw [e1]
    have e2 : lookback + k - k = lookback := by omega
    rw [e2]
  refine ⟨by rw [hwin, hslice], ?_, by rw [htgt]; congr 1; omega⟩
  rw [hwin, hslice]
  rw [List.length_take, List.length_drop]
  omega

/-- Witness for C5 at `series = [1,2,3,4,5]`, `lookback = 2`. -/
theorem claim5_createSequences_witness :
    (0 : ℕ) < 2 ∧
    (createSequences [1, 2, 3, 4, 5] 2).1.length = ([1,2,3,4,5] : List ℚ).length - 2 ∧
    createSequences [1, 2, 3, 4, 5] 2 = ([[1, 2], [2, 3], [3, 4]], [3, 4, 5]) := by
  have h := claim5_createSequences [1, 2, 3, 4, 5] 2 (by decide)
  exact ⟨by decide, h.1, h.2.2.2⟩

/-- **C7.** `calculateMovingAverage` preserves the input length; entry `i` is
undefined exactly when `i < period - 1` and otherwise is the arithmetic mean
of the `period` prices ending at index `i`; and
`movingAverage [10,20,30] 2 = [undefined, 15, 25]`. -/
theorem claim7_movingAverage
    (prices : List ℚ) (period : ℕ) (hp : 0 < period) :
    (calculateMovingAverage prices period).length = prices.length ∧
    (∀ i < prices.length,
      (i < period - 1 →
        (calculateMovingAverage prices period).getD i none = none) ∧
      (period - 1 ≤ i →
        (calculateMovingAverage prices period).getD i none
            = some (((prices.drop (i + 1 - period)).take period).sum / period) ∧
        ((prices.drop (i + 1 - period)).take period).length = period)) ∧
    calculateMovingAverage [10, 20, 30] 2 = [none, some 15, some 25] := by
  refine ⟨by simp [calculateMovingAverage],
    ?_, by norm_num [calculateMovingAverage, jsSlice, List.range_succ]⟩
  intro i hi
  have hentry : (calculateMovingAverage prices period).getD i none
      = if i < period - 1 then none
        else some ((jsSlice prices (i + 1 - period) (i + 1)).sum / (period : ℚ)) := by
    simp only [calculateMovingAverage]
    exact getD_map_range _ _ _ _ hi
  constructor
  · intro hlt
    rw [hentry, if_pos hlt]
  · intro hge
    have hnlt : ¬ i < period - 1 := not_lt.mpr hge
    have hslice : jsSlice prices (i + 1 - period) (i + 1)
        = (prices.drop (i + 1 - period)).take period := by
      unfold jsSlice
      rw [List.drop_take]
      have e : i + 1 - (i + 1 - period) = period := by omega
      rw [e]
    refine ⟨by rw [hentry, if_neg hnlt, hslice], ?_⟩
    rw [List.length_take, List.length_drop]
    omega

/-- Witness for C7 at `prices = [10,20,30]`, `period = 2`. -/
theorem claim7_movingAverage_witness :
    (0 : ℕ) < 2 ∧
    calculateMovingAverage [10, 20, 30] 2 = [none, some 15, some 25] :=
  ⟨by decide, (claim7_movingAverage [10, 20, 30] 2 (by decide)).2.2⟩

/-- The rollout emits one value per step. -/
theorem rollout_length (model : ModelFn) (window : List ℚ) (n : ℕ) :
    (rollout model window n).length = n := by
  induction n generalizing window with
  | zero => rfl
  | succ n ih => simp [rollout, ih]

/-- Advancing the initial window by one slide shifts the window sequence. -/
theorem rolloutWindow_shift (model : ModelFn) (w : List ℚ) (k : ℕ) :
    rolloutWindow model w (k + 1)
      = rolloutWindow model (w.drop 1 ++ [model w]) k := by
  induction k with
  | zero => rfl
  | succ k ih =>
    have h1 : rolloutWindow model w (k + 1 + 1)
        = (rolloutWindow model w (k + 1)).drop 1
          ++ [model (rolloutWindow model w (k + 1))] := rfl
    have h2 : rolloutWindow model (w.drop 1 ++ [model w]) (k + 1)
        = (rolloutWindow model (w.drop 1 ++ [model w]) k).drop 1
          ++ [model (rolloutWindow model (w.drop 1 ++ [model w]) k)] := rfl
    rw [h1, h2, ih]

/-- The rollout is the list of per-step model outputs, in step order. -/
theorem rollout_eq_map (model : ModelFn) (w : List ℚ) (n : ℕ) :
    rollout model w n = (List.range n).map (rolloutPred model w) := by
  induction n generalizing w with
  | zero => rfl
  | succ n ih =>
    rw [List.range_succ_eq_map, List.map_cons, List.map_map]
    show model w :: rollout model (w.drop 1 ++ [model w]) n = _
    rw [ih]
    refine congrArg₂ List.cons rfl (List.map_congr_left fun k _ => ?_)
    show rolloutPred model (w.drop 1 ++ [model w]) k = rolloutPred model w (k + 1)
    unfold rolloutPred
    rw [rolloutWindow_shift]

/-- After `k` slides, the window is what remains of the initial window
followed by the predictions emitted so far. -/
theorem rolloutWindow_eq_drop (model : ModelFn) (w : List ℚ) (hw : w ≠ [])
    (k : ℕ) :
    rolloutWindow model w k
      = (w ++ (List.range k).map (rolloutPred model w)).drop k := by
  induction k with
  | zero => simp [rolloutWindow]
  | succ k ih =>
    have hwpos : 0 < w.length := List.length_pos.mpr hw
    set P := (List.range k).map (rolloutPred model w) with hP
    have hstep : rolloutWindow model w (k + 1)
        = (rolloutWindow model w k).drop 1 ++ [model (rolloutWindow model w k)] := rfl
    have hpred : model (rolloutWindow model w k) = rolloutPred model w k := rfl
    have hlen : k + 1 ≤ (w ++ P).length := by
      rw [List.length_append, hP, List.length_map, List.length_range]
      omega
    have key : ((w ++ P) ++ [rolloutPred model w k]).drop (k + 1)
        = (w ++ P).drop (k + 1) ++ [rolloutPred model w k] := by
      rw [List.drop_append_eq_append_drop]
      have h0 : k + 1 - (w ++ P).length = 0 := by omega
      rw [h0, List.drop_zero]
    calc rolloutWindow model w (k + 1)
        = (rolloutWindow model w k).drop 1 ++ [model (rolloutWindow model w k)] := hstep
      _ = ((w ++ P).drop k).drop 1 ++ [rolloutPred model w k] := by rw [hpred, ih]
      _ = (w ++ P).drop (k + 1) ++ [rolloutPred model w k] := by rw [List.drop_drop]
      _ = ((w ++ P) ++ [rolloutPred model w k]).drop (k + 1) := key.symm
      _ = (w ++ (P ++ [rolloutPred model w k])).drop (k + 1) := by rw [List.append_assoc]
      _ = (w ++ (List.range (k + 1)).map (rolloutPred model w)).drop (k + 1) := by
          rw [List.range_succ, List.map_append, List.map_cons, List.map_nil]

/-- From slide `w.length` on, the window consists solely of earlier
predictions. -/
theorem rolloutWindow_preds (model : ModelFn) (w : List ℚ) (hw : w ≠ [])
    (k : ℕ) (hk : w.length ≤ k) :
    rolloutWindow model w k
      = ((List.range k).map (rolloutPred model w)).drop (k - w.length) := by
  rw [rolloutWindow_eq_drop model w hw k, List.drop_append_eq_append_drop,
    List.drop_eq_nil_of_le hk, List.nil_append]

/-- **C1.** `predict` on a trained service performs an iterative rollout: the
initial window `w0` is the last `lookback` history values normalized with the
stored scaler; exactly `horizon` values are collected, the `k`-th being the
model's output on the `k`-th window; the window advances each step by
dropping its oldest element and appending the value just emitted, so that
from step `lookback` on the window consists exactly of the predictions of
steps `k - lookback … k - 1`; and `predict` returns the collected values
denormalized with the stored scaler (each rounded to two decimals for
display). -/
theorem claim1_predict_rollout
    (model : ModelFn) (scaler : Scaler) (today : ℕ) (prices : List ℚ)
    (lookback horizon : ℕ) (w0 : List ℚ)
    (hlb : 0 < lookback) (hlen : lookback ≤ prices.length) (_hh : 0 < horizon)
    (hw0 : w0 = jsSliceLast (normalizeWith scaler prices) lookback) :
    w0 = (normalizeWith scaler prices).drop (prices.length - lookback) ∧
    w0.length = lookback ∧
    rollout model w0 horizon = (List.range horizon).map (rolloutPred model w0) ∧
    (rollout model w0 horizon).length = horizon ∧
    (∀ k, rolloutWindow model w0 (k + 1)
        = (rolloutWindow model w0 k).drop 1 ++ [rolloutPred model w0 k]) ∧
    (∀ k, lookback ≤ k → rolloutWindow model w0 k
        = ((List.range k).map (rolloutPred model w0)).drop (k - lookback)) ∧
    predict ⟨some model, some scaler⟩ today prices lookback horizon
      = .ok ((List.range horizon).map (fun i =>
          (today + i + 1,
           roundTo2 ((denormalizeData (rollout model w0 horizon) scaler).getD i 0)))) := by
  have hw0' : w0 = (normalizeWith scaler prices).drop (prices.length - lookback) := by
    rw [hw0]
    unfold jsSliceLast
    rw [if_neg (Nat.pos_iff_ne_zero.mp hlb)]
    rw [normalizeWith, List.length_map]
  have hw0len : w0.length = lookback := by
    rw [hw0', List.length_drop, normalizeWith, List.length_map]
    omega
  have hw0ne : w0 ≠ [] := by
    intro hnil
    rw [hnil] at hw0len
    simp at hw0len
    omega
  have hdlen : (denormalizeData (rollout model w0 horizon) scaler).length = horizon := by
    rw [denormalizeData, List.length_map, rollout_length]
  refine ⟨hw0', hw0len, rollout_eq_map model w0 horizon, rollout_length model w0 horizon,
    fun k => rfl, fun k hk => ?_, ?_⟩
  · rw [rolloutWindow_preds model w0 hw0ne k (by rw [hw0len]; exact hk), hw0len]
  · show Except.ok _ = _
    rw [← hw0, hdlen]

/-- Witness for C1 with the summing model, scaler `(0, 1)`, history
`[0, 1/2, 1]`, `lookback = 2`, `horizon = 3`, called on day 100. -/
theorem claim1_predict_rollout_witness :
    ((0 : ℕ) < 2 ∧ 2 ≤ ([0, 1/2, 1] : List ℚ).length ∧ (0 : ℕ) < 3) ∧
    (rollout sumModel (jsSliceLast (normalizeWith ⟨0, 1⟩ [0, 1/2, 1]) 2) 3).length = 3 ∧
    predict ⟨some sumModel, some ⟨0, 1⟩⟩ 100 [0, 1/2, 1] 2 3
      = .ok ((List.range 3).map (fun i =>
          (100 + i + 1,
           roundTo2 ((denormalizeData
             (rollout sumModel (jsSliceLast (normalizeWith ⟨0, 1⟩ [0, 1/2, 1]) 2) 3)
             ⟨0, 1⟩).getD i 0)))) := by
  obtain ⟨-, -, -, h4, -, -, h7⟩ :=
    claim1_predict_rollout sumModel ⟨0, 1⟩ 100 [0, 1/2, 1] 2 3 _
      (by decide) (by decide) (by decide) rfl
  exact ⟨⟨by decide, by decide, by decide⟩, h4, h7⟩

/-- **C2 counterexample.** The forecast dates are computed from the current
wall-clock date (`new Date()`, lstmService.ts line 149), not from the
supplied history — whose dates are not even an input of `predict`.  Calling
`predict` on day 100 over a history whose last known date is day 50 yields
the forecast date 101 (the day after the call), not 51 (the day after the
last date in the history), refuting the claim as stated. -/
theorem claim2_counterexample :
    ∃ out, predict ⟨some sumModel, some ⟨0, 1⟩⟩ 100 [0, 1/2, 1] 2 1 = .ok out ∧
      out.map Prod.fst = [101] ∧ out.map Prod.fst ≠ [50 + 1] := by
  refine ⟨[(101, 3/2)], ?_, by decide, by decide⟩
  norm_num [predict, normalizeWith, jsSliceLast, rollout, denormalizeData,
    roundTo2, sumModel, List.range_succ]

/-- **C2 amended.** Every successful forecast of horizon `h` made on day
`today` carries the consecutive dates `today + 1, …, today + h` — strictly
increasing, one day apart, starting the day after the current date of the
call.  (These coincide with the day after the history's last date exactly
when the history ends on the current day, as the app's mock histories do.) -/
theorem claim2_forecast_dates
    (st : LSTMState) (today : ℕ) (prices : List ℚ) (lookback horizon : ℕ)
    (out : List (ℕ × ℚ))
    (hok : predict st today prices lookback horizon = .ok out) :
    out.map Prod.fst = (List.range horizon).map (fun i => today + i + 1) ∧
    (out.map Prod.fst).Chain' (fun a b => b = a + 1) ∧
    (out.map Prod.fst).Pairwise (· < ·) := by
  have hmap : out.map Prod.fst = (List.range horizon).map (fun i => today + i + 1) := by
    unfold predict at hok
    split at hok
    next model scaler heq1 heq2 =>
      injection hok with hok
      rw [← hok, List.map_map]
      have hL : (denormalizeData
          (rollout model (jsSliceLast (normalizeWith scaler prices) lookback) horizon)
          scaler).length = horizon := by
        rw [denormalizeData, List.length_map, rollout_length]
      rw [hL]
      rfl
    next =>
      exact absurd hok (by simp)
  refine ⟨hmap, ?_, ?_⟩
  · rw [hmap]
    rw [List.chain'_iff_get]
    intro i hi
    simp only [List.length_map, List.length_range] at hi
    rw [List.get_eq_getElem, List.get_eq_getElem, List.getElem_map, List.getElem_map]
    simp only [List.getElem_range]
    omega
  · rw [hmap]
    refine List.Pairwise.map _ (fun a b hab => ?_) (List.pairwise_lt_range horizon)
    omega

/-- Witness for the amended C2 at a concrete successful forecast. -/
theorem claim2_forecast_dates_witness :
    predict ⟨some sumModel, some ⟨0, 1⟩⟩ 100 [0, 1/2, 1] 2 1 = .ok [(101, 3/2)] ∧
    ([((101 : ℕ), (3/2 : ℚ))].map Prod.fst
        = (List.range 1).map (fun i => 100 + i + 1)) := by
  have hok : predict ⟨some sumModel, some ⟨0, 1⟩⟩ 100 [0, 1/2, 1] 2 1
      = .ok [(101, 3/2)] := by
    norm_num [predict, normalizeWith, jsSliceLast, rollout, denormalizeData,
      roundTo2, sumModel, List.range_succ]
  exact ⟨hok, (claim2_forecast_dates _ 100 [0, 1/2, 1] 2 1 _ hok).1⟩

/-- **C3.** The code contradicts the specified fit-time validation: training
on the perfectly flat 11-price history `[5, …, 5]` (default lookback 10)
raises no error at all — it silently stores the degenerate scaler
`min = max = 5`, whose normalization divides by zero (`NaN` in JS, modelled
by the junk value of division by zero over `ℚ`) — and training on the empty
history raises `'Not enough data to train the model'`, not an invalid-input
error.  No `InvalidInputError` path exists anywhere in the source. -/
theorem claim3_fit_skips_validation :
    (trainModel sumModel freshState (List.replicate 11 5) 10).2 = none ∧
    (trainModel sumModel freshState (List.replicate 11 5) 10).1.scaler
        = some ⟨5, 5⟩ ∧
    (trainModel sumModel freshState [] 10).2 = some .notEnoughData := by
  refine ⟨by decide, ?_, by decide⟩
  norm_num [trainModel, normalizeData, listMin, listMax, createSequences,
    freshState, min_def, max_def, List.replicate]

/-- The number of windows `createSequences` builds. -/
theorem createSequences_fst_length (data : List ℚ) (lookback : ℕ) :
    (createSequences data lookback).1.length = data.length - lookback := by
  simp [createSequences]

/-- **C8.** Training on a history of length at most `lookback` (i.e. shorter
than `lookback + 1`) throws `'Not enough data to train the model'`, because
the sequence dataset built from the normalized history is empty. -/
theorem claim8_insufficient_data
    (fitted : ModelFn) (st : LSTMState) (prices : List ℚ) (lookback : ℕ)
    (hlen : prices.length ≤ lookback) :
    (createSequences (normalizeData prices).normalized lookback).1.length = 0 ∧
    (trainModel fitted st prices lookback).2 = some .notEnoughData := by
  have hseq : (createSequences (normalizeData prices).normalized lookback).1.length = 0 := by
    rw [createSequences_fst_length, normalizeData]
    simp only [List.length_map]
    omega
  refine ⟨hseq, ?_⟩
  unfold trainModel
  rw [if_pos hseq]

/-- Witness for C8: two prices, lookback 10. -/
theorem claim8_insufficient_data_witness :
    ([1, 2] : List ℚ).length ≤ 10 ∧
    (trainModel sumModel freshState [1, 2] 10).2 = some .notEnoughData :=
  ⟨by decide, (claim8_insufficient_data sumModel freshState [1, 2] 10 (by decide)).2⟩

/-- **C9.** `predict` on a fresh service — or on any service after
`dispose` — fails with `'Model not trained yet'`; and it can return
successfully only when a trained model and a scaler are both stored. -/
theorem claim9_not_trained
    (st : LSTMState) (today : ℕ) (prices : List ℚ) (lookback horizon : ℕ) :
    predict freshState today prices lookback horizon = .error .notTrained ∧
    predict (dispose st) today prices lookback horizon = .error .notTrained ∧
    (∀ out, predict st today prices lookback horizon = .ok out →
      st.model.isSome ∧ st.scaler.isSome) := by
  refine ⟨rfl, rfl, ?_⟩
  intro out hok
  unfold predict at hok
  rcases hm : st.model with _ | m <;> rcases hs : st.scaler with _ | s <;>
    rw [hm, hs] at hok <;> simp_all

/-- Witness for C9 at concrete arguments and a concrete disposed service. -/
theorem claim9_not_trained_witness :
    predict freshState 100 [1, 2, 3] 2 5 = .error .notTrained ∧
    predict (dispose ⟨some sumModel, some ⟨0, 1⟩⟩) 100 [1, 2, 3] 2 5
      = .error .notTrained := by
  obtain ⟨h1, h2, -⟩ := claim9_not_trained ⟨some sumModel, some ⟨0, 1⟩⟩ 100 [1, 2, 3] 2 5
  exact ⟨h1, h2⟩

/-- **C10.** `trainModel` is not atomic on failure: on a history of length at
most `lookback` it throws, but only after the stored scaler has been
overwritten with the min/max fitted to the failing input; the stored model is
left as it was before the call, so a subsequent forecast would pair the old
model with the new scaler. -/
theorem claim10_train_not_atomic
    (fitted : ModelFn) (st : LSTMState) (prices : List ℚ) (lookback : ℕ)
    (hlen : prices.length ≤ lookback) :
    (trainModel fitted st prices lookback).2 = some .notEnoughData ∧
    (trainModel fitted st prices lookback).1.scaler
        = some ⟨listMin prices, listMax prices⟩ ∧
    (trainModel fitted st prices lookback).1.model = st.model := by
  have hseq : (createSequences (normalizeData prices).normalized lookback).1.length = 0 := by
    rw [createSequences_fst_length, normalizeData]
    simp only [List.length_map]
    omega
  unfold trainModel
  rw [if_pos hseq]
  exact ⟨rfl, rfl, rfl⟩

/-- Witness for C10: a trained service retrained on the single price `[7]`
with lookback 10 keeps its old model but now stores scaler `(7, 7)`. -/
theorem claim10_train_not_atomic_witness :
    ([7] : List ℚ).length ≤ 10 ∧
    (trainModel sumModel ⟨some sumModel, some ⟨0, 1⟩⟩ [7] 10).2
        = some .notEnoughData ∧
    (trainModel sumModel ⟨some sumModel, some ⟨0, 1⟩⟩ [7] 10).1.scaler
        = some ⟨listMin [7], listMax [7]⟩ ∧
    (trainModel sumModel ⟨some sumModel, some ⟨0, 1⟩⟩ [7] 10).1.model
        = (⟨some sumModel, some ⟨0, 1⟩⟩ : LSTMState).model := by
  have h := claim10_train_not_atomic sumModel ⟨some sumModel, some ⟨0, 1⟩⟩ [7] 10 (by decide)
  exact ⟨by decide, h.1, h.2.1, h.2.2⟩

/-- One gain entry per consecutive price pair. -/
theorem rsiGains_length (data : List ℚ) :
    (rsiGains data).length = data.length - 1 := by
  simp [rsiGains]

/-- Gains are clamped at zero from below. -/
theorem rsiGains_nonneg (data : List ℚ) : ∀ x ∈ rsiGains data, 0 ≤ x := by
  intro x hx
  simp only [rsiGains, List.mem_map] at hx
  obtain ⟨i, -, rfl⟩ := hx
  split
  next h => exact le_of_lt h
  next => exact le_refl 0

/-- Losses are absolute values or zero, hence nonnegative. -/
theorem rsiLosses_nonneg (data : List ℚ) : ∀ x ∈ rsiLosses data, 0 ≤ x := by
  intro x hx
  simp only [rsiLosses, List.mem_map] at hx
  obtain ⟨i, -, rfl⟩ := hx
  split
  next => exact abs_nonneg _
  next => exact le_refl 0

/-- A trailing-window average of a nonnegative series is nonnegative. -/
theorem trailingAvg_nonneg (series : List ℚ) (hser : ∀ x ∈ series, 0 ≤ x)
    (period i : ℕ) : 0 ≤ trailingAvg series period i := by
  unfold trailingAvg jsSlice
  apply div_nonneg
  · refine List.sum_nonneg fun x hx => hser x ?_
    exact List.take_subset _ _ (List.drop_subset _ _ hx)
  · positivity

/-- **C6 counterexample.** On the empty price list the RSI output is `[NaN]`:
its length is 1, not the input length 0, because the re-alignment `NaN`
prefix (line 141) is emitted unconditionally. -/
theorem claim6_counterexample :
    calculateRSI [] 14 = [none] ∧
    (calculateRSI [] 14).length ≠ ([] : List ℚ).length :=
  ⟨by decide, by decide⟩

/-- **C6 amended.** For every **nonempty** price list and period `> 0`: the
RSI output has exactly the length of the input; every defined (non-`NaN`)
entry lies in `[0, 100]`; and at any in-range delta index at or past
`period - 1` where the trailing-window average loss is exactly `0`, the
emitted value is exactly `100`.  (On the empty input the output has length 1,
not 0 — see the counterexample.) -/
theorem claim6_rsi_invariants
    (prices : List ℚ) (period : ℕ) (_hp : 0 < period) (hne : prices ≠ []) :
    (calculateRSI prices period).length = prices.length ∧
    (∀ x ∈ calculateRSI prices period, ∀ v, x = some v → 0 ≤ v ∧ v ≤ 100) ∧
    (∀ i < (rsiGains prices).length, period - 1 ≤ i →
      trailingAvg (rsiLosses prices) period i = 0 →
      (calculateRSI prices period).getD (i + 1) none = some 100) := by
  refine ⟨?_, ?_, ?_⟩
  · have hpos : 0 < prices.length := List.length_pos.mpr hne
    simp only [calculateRSI, List.length_cons, List.length_map, List.length_range]
    rw [rsiGains_length]
    omega
  · intro x hx v hv
    subst hv
    simp only [calculateRSI, List.mem_cons, List.mem_map] at hx
    rcases hx with h | ⟨i, -, hfi⟩
    · exact absurd h (by simp)
    · by_cases h1 : i < period - 1
      · rw [if_pos h1] at hfi
        exact absurd hfi (by simp)
      · rw [if_neg h1] at hfi
        by_cases h2 : trailingAvg (rsiLosses prices) period i = 0
        · rw [if_pos h2] at hfi
          injection hfi with hfi
          rw [← hfi]
          norm_num
        · rw [if_neg h2] at hfi
          injection hfi with hfi
          have hg : 0 ≤ trailingAvg (rsiGains prices) period i :=
            trailingAvg_nonneg _ (rsiGains_nonneg prices) _ _
          have hl0 : 0 ≤ trailingAvg (rsiLosses prices) period i :=
            trailingAvg_nonneg _ (rsiLosses_nonneg prices) _ _
          have hl : 0 < trailingAvg (rsiLosses prices) period i :=
            lt_of_le_of_ne hl0 (Ne.symm h2)
          have ht : 0 ≤ trailingAvg (rsiGains prices) period i
              / trailingAvg (rsiLosses prices) period i := div_nonneg hg hl.le
          have hden : (1 : ℚ) ≤ 1 + trailingAvg (rsiGains prices) period i
              / trailingAvg (rsiLosses prices) period i := by linarith
          have hfrac_pos : 0 < (100 : ℚ) / (1 + trailingAvg (rsiGains prices) period i
              / trailingAvg (rsiLosses prices) period i) :=
            div_pos (by norm_num) (by linarith)
          have hfrac_le : (100 : ℚ) / (1 + trailingAvg (rsiGains prices) period i
              / trailingAvg (rsiLosses prices) period i) ≤ 100 :=
            div_le_self (by norm_num) hden
          rw [← hfi]
          constructor <;> linarith
  · intro i hi hge h0
    simp only [calculateRSI]
    rw [List.getD_cons_succ, getD_map_range _ _ _ _ hi]
    rw [if_neg (not_lt.mpr hge), if_pos h0]

/-- Witness for the amended C6 at `prices = [1, 2, 3]`, `period = 2` (a
strictly increasing history: at delta index 1 the average loss is zero, so
the entry at position 2 is exactly 100). -/
theorem claim6_rsi_invariants_witness :
    ((0 : ℕ) < 2 ∧ ([1, 2, 3] : List ℚ) ≠ []) ∧
    (calculateRSI [1, 2, 3] 2).length = ([1, 2, 3] : List ℚ).length ∧
    (calculateRSI [1, 2, 3] 2).getD 2 none = some 100 := by
  have h := claim6_rsi_invariants [1, 2, 3] 2 (by decide) (by decide)
  refine ⟨⟨by decide, by decide⟩, h.1, ?_⟩
  refine h.2.2 1 ?_ ?_ ?_
  · decide
  · decide
  · norm_num [trailingAvg, rsiLosses, jsSlice, List.range_succ]

end AlphaAI
